import Mathlib

/-!
Shallow embedding of the call-aggregation and token-wrapper layer of the
`web3` convenience library (TypeScript). Each definition mirrors one
function of the source; JavaScript strings become `String`, JS numbers and
`BigNumber` become `Nat`/`Int`, thrown exceptions become explicit error
values, unbounded `while`/retry loops take a fuel argument and return
`none`/a marker when the fuel runs out (which models divergence of the
original loop), and `async` functions are modelled by their resolved value
together with an explicit count or trace of the external effects performed.
-/

/-! ### JS string helpers

`e.toString().toLowerCase().includes('revert exception')` and
`String.prototype.replace` (first occurrence only) are modelled on
`List Char` so that everything reduces inside the kernel. -/

/-- Lower-case a single ASCII character, as `toLowerCase` does on ASCII. -/
def lowerAscii (c : Char) : Char :=
  if 65 ≤ c.toNat ∧ c.toNat ≤ 90 then Char.ofNat (c.toNat + 32) else c

/-- The character list of `s.toLowerCase()` for ASCII strings. -/
def lowerChars (s : String) : List Char := s.data.map lowerAscii

/-- JS `hay.includes(needle)` on character lists. -/
def containsChars (hay needle : List Char) : Bool :=
  (List.range (hay.length + 1)).any fun i => needle.isPrefixOf (hay.drop i)

/-- JS `s.replace(pat, rep)`: replace the first occurrence of `pat` only. -/
def replaceFirst (s pat rep : String) : String :=
  match (List.range (s.length + 1)).find? (fun i => pat.data.isPrefixOf (s.data.drop i)) with
  | some i => String.mk (s.data.take i ++ rep.data ++ s.data.drop (i + pat.length))
  | none => s

/-! ### BaseContract.retryCall (src/BaseContract.ts, lines 48-60)

```ts
protected async retryCall<T>(func: (...args: any[]) => Promise<T>, ...params: any[]): Promise<T> {
    try {
        return func(...params);
    } catch (e: any) {
        if (e.toString().toLowerCase().includes('revert exception')) {
            throw e;
        }
        await sleep(1);
        return this.retryCall(func);
    }
}
```

A call to an `async` function is one of three things: it resolves to a
value, it throws synchronously (caught by the `try`), or it returns a
promise that later rejects. Because the `return func(...params)` inside
the `try` is not awaited, a rejected promise is *not* caught by the
`catch`; only a synchronous throw is. The recursive call passes `func`
with no `params`. The embedding returns the call result together with the
trace of argument lists `func` was applied to; fuel bounds the unbounded
recursion, `hung` marking fuel exhaustion. -/

/-- Outcome of invoking the wrapped async function once. -/
inductive JsOutcome (α : Type) where
  | ok (value : α)
  | syncThrow (err : String)
  | asyncReject (err : String)
deriving DecidableEq

/-- Result of `retryCall` as observed by its caller. -/
inductive JsCallResult (α : Type) where
  | value (v : α)
  | thrown (err : String)
  | hung
deriving DecidableEq

/-- The revert marker test `e.toString().toLowerCase().includes('revert exception')`. -/
def isRevertText (e : String) : Bool :=
  containsChars (lowerChars e) (String.data ("revert exception"))

/-- `BaseContract.retryCall`, with the trace of argument lists passed to `func`. -/
def retryCall {α β : Type} (func : List β → JsOutcome α) (params : List β) (fuel : Nat) :
    JsCallResult α × List (List β) :=
  match func params with
  | .ok v => (.value v, [params])
  | .asyncReject e => (.thrown e, [params])
  | .syncThrow e =>
    if isRevertText e then (.thrown e, [params])
    else
      match fuel with
      | 0 => (.hung, [params])
      | fuel1 + 1 =>
        let r := retryCall func [] fuel1
        (r.1, params :: r.2)

/-- A wrapped function whose promise rejects with a generic timeout error. -/
def timeoutFunc : List Int → JsOutcome Int :=
  fun _ => .asyncReject ("timed out after 5000ms")

/-- A wrapped function whose promise rejects with a revert-marked error. -/
def revertFunc : List Int → JsOutcome Int :=
  fun _ => .asyncReject ("call revert exception in method")

/-- A wrapped function that throws a revert-marked error synchronously. -/
def revertSyncFunc : List Int → JsOutcome Int :=
  fun _ => .syncThrow ("call revert exception in method")

/-- A wrapped function that throws a generic error synchronously when applied
to `[5]` and succeeds on any other argument list, e.g. on the empty one. -/
def flakyFunc : List Int → JsOutcome Int :=
  fun params => if params = [5] then .syncThrow ("request timeout") else .ok 7

/-! ### MulticallProvider.aggregate (MulticallProvider, lines 74-107)

```ts
let callRequests = calls.map(elem => {
    const callData = ABI.encode(elem.name, elem.inputs, elem.params);
    return { target: elem.contract.address, callData };
});
const callResult = [] as unknown as Type;
while (callRequests.length !== 0) {
    const batch = callRequests.slice(0, batchSize);
    callRequests = callRequests.slice(batchSize);
    const response = await this.contract.retryCall(this.contract.aggregate, batch);
    for (let i = 0; i < batch.length; i++) {
        const outputs = calls[i].outputs;
        const returnData = response.returnData[i];
        const params = ABI.decode(outputs, returnData);
        const result = outputs.length === 1 ? params[0] : params;
        callResult.push(result);
    }
}
return callResult;
```

`ABI.encode`/`ABI.decode` and the on-chain aggregator entry point are
external collaborators and are passed in as function parameters `encode`,
`decode` and `execBatch`. Decoded JS values are a small inductive; the
`outputs.length === 1 ? params[0] : params` unwrapping becomes
`decodeEntry`. Note that the inner loop reads `calls[i]` with the
batch-local index `i` into the full `calls` array. Fuel bounds the
`while` loop (`none` = the loop never ends, which happens for
`batchSize = 0`); the list of batches handed to `execBatch` is returned
alongside the decoded results. -/

/-- A single decoded output value: `undef` is JavaScript `undefined`
(`params[0]` of an empty decode). -/
inductive JsPrim where
  | undef
  | str (s : String)
  | num (n : Int)
deriving DecidableEq, Inhabited

/-- A decoded per-call result: either one scalar output, or the tuple of
all decoded outputs. -/
inductive JsValue where
  | prim (p : JsPrim)
  | arr (elems : List JsPrim)
deriving DecidableEq, Inhabited

/-- One entry of `IContractCall`: target contract, function name, input type
signature, input values, output type signature. -/
structure ContractCall where
  target : String
  name : String
  inputs : List String
  params : List JsPrim
  outputs : List String
deriving DecidableEq, Inhabited

/-- One `{target, callData}` pair sent to the aggregator contract. -/
structure CallRequest where
  target : String
  callData : String
deriving DecidableEq, Inhabited

/-- `calls.map(elem => ({ target: elem.contract.address, callData: ABI.encode(...) }))`. -/
def encodeRequest (encode : String → List String → List JsPrim → String)
    (call : ContractCall) : CallRequest :=
  { target := call.target, callData := encode call.name call.inputs call.params }

/-- `params = ABI.decode(outputs, returnData); outputs.length === 1 ? params[0] : params`. -/
def decodeEntry (decode : List String → String → List JsPrim)
    (call : ContractCall) (returnData : String) : JsValue :=
  let params := decode call.outputs returnData
  if call.outputs.length = 1 then JsValue.prim (params.headD JsPrim.undef) else JsValue.arr params

/-- The `while (callRequests.length !== 0)` loop of `aggregate`. Returns the
decoded results in push order together with the successive batches handed to
the aggregator, or `none` when the fuel runs out. -/
def aggregateLoop (decode : List String → String → List JsPrim)
    (execBatch : List CallRequest → List String)
    (calls : List ContractCall) (batchSize : Nat) :
    List CallRequest → Nat → Option (List JsValue × List (List CallRequest))
  | [], _ => some ([], [])
  | _ :: _, 0 => none
  | req :: reqs, fuel + 1 =>
    let pending := req :: reqs
    let batch := pending.take batchSize
    let rest := pending.drop batchSize
    let returnData := execBatch batch
    let decoded := (List.range batch.length).map fun i =>
      decodeEntry decode (calls.getD i default) (returnData.getD i "")
    match aggregateLoop decode execBatch calls batchSize rest fuel with
    | none => none
    | some (tailRes, tailBatches) => some (decoded ++ tailRes, batch :: tailBatches)

/-- `MulticallProvider.aggregate`. The fuel `calls.length + 1` is enough for
every positive batch size; `none` models the non-terminating loop. -/
def aggregate (encode : String → List String → List JsPrim → String)
    (decode : List String → String → List JsPrim)
    (execBatch : List CallRequest → List String)
    (calls : List ContractCall) (batchSize : Nat) :
    Option (List JsValue × List (List CallRequest)) :=
  let callRequests := calls.map (encodeRequest encode)
  aggregateLoop decode execBatch calls batchSize callRequests (callRequests.length + 1)

/-- Example codec: encoding is just the function name. -/
def encodeEx (fname : String) (_inputs : List String) (_params : List JsPrim) : String :=
  fname

/-- Example codec: one decoded value per output type, tagged with the raw data. -/
def decodeEx (outputs : List String) (returnData : String) : List JsPrim :=
  outputs.map fun t => JsPrim.str (t ++ ":" ++ returnData)

/-- Example aggregator: echoes each request's call data as its return data. -/
def execEx (batch : List CallRequest) : List String :=
  batch.map fun r => r.callData

/-- Two calls with different output signatures: call 0 has a single output,
call 1 has two outputs. -/
def callsEx : List ContractCall :=
  [{ target := "0xA", name := "f0", inputs := [], params := [], outputs := ["uint256"] },
   { target := "0xB", name := "f1", inputs := [], params := [], outputs := ["uint256", "address"] }]

/-! ### MulticallProvider constructor and create (lines 35-53 and 167-178)

```ts
protected constructor (provider, chainId, multicallAddress?) {
    if (!multicallAddress) {
        const address = multicallAddresses.get(chainId);
        if (!address) { throw new Error('Unknown multicall address'); }
        this.multicallAddress = address;
    } else { this.multicallAddress = multicallAddress; }
    ...
}
public static async create (provider, options?) {
    options = options || {};
    if (!options.chainId) { options.chainId = (await provider.getNetwork()).chainId; }
    return new MulticallProvider(provider, options.chainId, options.multicallAddress);
}
```

The registry `multicallAddresses` is a chain-id-keyed map supplied from the
outside. JS truthiness of a possibly-missing string (`undefined` and `''`
are falsy) is `jsTruthyStr`; JS truthiness of the numeric `options.chainId`
makes `0` falsy. `createMulticall` additionally counts the
`provider.getNetwork()` network round trips performed. -/

/-- JS truthiness of `string | undefined`: `undefined` and `''` are falsy. -/
def jsTruthyStr : Option String → Bool
  | none => false
  | some s => !(s.length = 0)

/-- The `MulticallProvider` constructor: resolve the multicall address or
throw `'Unknown multicall address'`. Performs no network call. -/
def constructMulticall (registry : Nat → Option String) (chainId : Nat)
    (multicallAddress : Option String) : Except String String :=
  if !(jsTruthyStr multicallAddress) then
    let address := registry chainId
    if !(jsTruthyStr address) then Except.error ("Unknown multicall address")
    else Except.ok (address.getD "")
  else Except.ok (multicallAddress.getD "")

/-- `MulticallProvider.create`: resolve the chain id (asking the provider
over the network when `options.chainId` is absent or `0`) and construct.
The second component counts `provider.getNetwork()` round trips. -/
def createMulticall (registry : Nat → Option String) (networkChainId : Nat)
    (optChainId : Option Nat) (optAddress : Option String) :
    Except String String × Nat :=
  let resolved : Nat × Nat :=
    match optChainId with
    | none => (networkChainId, 1)
    | some cid => if cid = 0 then (networkChainId, 1) else (cid, 0)
  (constructMulticall registry resolved.1 optAddress, resolved.2)

/-! ### ERC1155.discoverMaximumId (ERC1155, lines 148-180)

```ts
public async discoverMaximumId (possibleMaxId = MaxApproval): Promise<BigNumber> {
    try { return await this.maximumID(); } catch {
        if (this._maximumID.isZero()) {
            try { await this.uri(0); } catch {
                try { await this.uri(1); this._maximumID = BigNumber.from(1); } catch {}
            }
        }
        for (let i = this._maximumID; i.lt(possibleMaxId); i = i.add(1)) {
            try { await this.uri(i); this._maximumID = i; } catch { break; }
        }
        return this._maximumID;
    }
}
```

The contract's responses are fixed collaborators: `maximumID` either
resolves to `some v` or rejects (`none`), and `uriOk id` says whether
`this.uri(id)` resolves. The instance state `_maximumID` is threaded
explicitly: `discoverMaximumId` maps the cache before the call to the pair
(returned value, cache after the call). -/

/-- The probing `for` loop: starting at `i` with the current cached value
`cache`, walk up while `uri` succeeds, recording the last success. -/
def discoverLoop (uriOk : Nat → Bool) (cache i possibleMaxId : Nat) : Nat :=
  if i < possibleMaxId then
    if uriOk i then discoverLoop uriOk i (i + 1) possibleMaxId else cache
  else cache
termination_by possibleMaxId - i

/-- `ERC1155.discoverMaximumId` as a state transformer on the `_maximumID`
cache: returns (result, new cache). -/
def discoverMaximumId (maximumID : Option Nat) (uriOk : Nat → Bool)
    (possibleMaxId : Nat) (cache : Nat) : Nat × Nat :=
  match maximumID with
  | some v => (v, cache)
  | none =>
    let cache1 :=
      if cache = 0 then
        if uriOk 0 then cache
        else if uriOk 1 then 1 else cache
      else cache
    let final := discoverLoop uriOk cache1 cache1 possibleMaxId
    (final, final)

/-- The cache after a sequence of `discoverMaximumId` calls with unchanged
contract responses, one `possibleMaxId` argument per call. -/
def discoverCacheAfter (maximumID : Option Nat) (uriOk : Nat → Bool)
    (args : List Nat) (cache : Nat) : Nat :=
  args.foldl (fun c p => (discoverMaximumId maximumID uriOk p c).2) cache

/-! ### Web3Controller.fetchABI (Web3Controller, lines 879-925)

```ts
public async fetchABI (contract_address, options?): Promise<string> {
    options ||= {}; options.chainId ||= await this.chainId(); options.force_refresh ||= false;
    const cacheId = options.chainId + '_' + contract_address;
    if (!options.force_refresh) {
        const abi = ls.get<string>(cacheId);
        if (abi && abi.length !== 0) { return abi; }
    }
    const chain = this._chainList.get(options.chainId);
    if (!chain || chain.explorers.length === 0) {
        throw new Error('Cannot automatically fetch ABI for chain: ' + options.chainId);
    }
    const url = chain.explorers[0].url.replace('https://', 'https://api.') +
        '/api?module=contract&action=getabi&address=' + contract_address;
    const response = await fetch(url);
    if (!response.ok) { throw new Error('Could not fetch ABI from explorer: ' + url); }
    const json = await response.json();
    if (json.result && json.status === '1') { ls.set(cacheId, json.result); return json.result; }
    await sleep(5);
    return this.fetchABI(contract_address, options);
}
```

The key-value store `ls`, the chain list and the HTTP fetch are
collaborators passed as functions; the result carries the updated store
and the number of HTTP fetches performed. Fuel bounds the unbounded
retry recursion; `retrying` marks fuel exhaustion. -/

/-- A chain descriptor: the explorer base URLs (the `url` field of each
`explorers` entry). -/
structure ChainDescriptor where
  explorers : List String
deriving DecidableEq, Inhabited

/-- An explorer API response: HTTP `ok` plus the JSON body `{status, result}`. -/
structure HttpJsonResponse where
  ok : Bool
  status : String
  result : String
deriving DecidableEq, Inhabited

/-- Observable outcome of `fetchABI`. -/
inductive FetchOutcome where
  | ok (abi : String)
  | err (message : String)
  | retrying
deriving DecidableEq

/-- The persisted-cache key `options.chainId + '_' + contract_address`. -/
def abiCacheId (chainId : Nat) (contractAddress : String) : String :=
  toString chainId ++ "_" ++ contractAddress

/-- `ls.set key value` on a store modelled as a partial map. -/
def updateStore (store : String → Option String) (key value : String) :
    String → Option String :=
  fun k => if k = key then some value else store k

/-- The explorer API URL
`chain.explorers[0].url.replace('https://', 'https://api.') + '/api?module=contract&action=getabi&address=' + contract_address`. -/
def explorerUrl (chain : ChainDescriptor) (contractAddress : String) : String :=
  replaceFirst (chain.explorers.headD "") ("https://") ("https://api.")
    ++ "/api?module=contract&action=getabi&address=" ++ contractAddress

/-- `Web3Controller.fetchABI`: result, updated key-value store, and the
number of HTTP fetches performed. -/
def fetchABI (chainList : Nat → Option ChainDescriptor)
    (http : String → HttpJsonResponse)
    (store : String → Option String)
    (chainId : Nat) (contractAddress : String) (forceRefresh : Bool)
    (fuel : Nat) : FetchOutcome × (String → Option String) × Nat :=
  let cacheId := abiCacheId chainId contractAddress
  let cached : Option String :=
    if !forceRefresh then
      match store cacheId with
      | some abi => if !(abi.length = 0) then some abi else none
      | none => none
    else none
  match cached with
  | some abi => (.ok abi, store, 0)
  | none =>
    match chainList chainId with
    | none => (.err ("Cannot automatically fetch ABI for chain: " ++ toString chainId), store, 0)
    | some chain =>
      if chain.explorers.length = 0 then
        (.err ("Cannot automatically fetch ABI for chain: " ++ toString chainId), store, 0)
      else
        let url := explorerUrl chain contractAddress
        let response := http url
        if !response.ok then
          (.err ("Could not fetch ABI from explorer: " ++ url), store, 1)
        else if !(response.result.length = 0) && response.status == "1" then
          (.ok response.result, updateStore store cacheId response.result, 1)
        else
          match fuel with
          | 0 => (.retrying, store, 1)
          | fuel1 + 1 =>
            let r := fetchABI chainList http store chainId contractAddress forceRefresh fuel1
            (r.1, r.2.1, r.2.2 + 1)

/-- Example store holding a cached ABI for chain 250, contract `0xC`. -/
def storeEx : String → Option String :=
  fun k => if k = abiCacheId 250 ("0xC") then some ("cachedAbiText") else none

/-- Example chain list: chain 250 has one explorer. -/
def chainListEx : Nat → Option ChainDescriptor :=
  fun cid => if cid = 250 then some { explorers := ["https://ftmscan.com"] } else none

/-- Example explorer endpoint: always answers with a fresh ABI text. -/
def httpEx : String → HttpJsonResponse :=
  fun _ => { ok := true, status := "1", result := "freshAbiText" }

/-! ### ERC1155 / ERC721 bulk metadata (ERC1155 lines 438-479, ERC721 lines 606-641)

Both `metadataBulk` methods fetch every token's URI over HTTP
(`Promise.all`), throw on the first non-success response, attach
`tokenId` and the contract address, and rewrite a leading `ipfs://` in the
`image` field to the gateway. The ERC1155 version then returns
`result.sort((a, b) => a.tokenId.toNumber() - b.tokenId.toNumber())`
while the ERC721 version returns `result` unsorted. The JS comparator
sort is modelled by insertion sort on the numeric token id; the HTTP
fetch is a collaborator `http : String → Option MetadataJson`
(`none` = non-success response). -/

/-- The JSON document behind a token URI. -/
structure MetadataJson where
  name : String
  description : String
  image : Option String
deriving DecidableEq, Inhabited

/-- One fetched-and-normalized metadata record. The ERC721 variant has no
`assetType` field; it is left `""` there. -/
structure TokenMetadata where
  name : String
  description : String
  image : Option String
  assetType : String
  tokenId : Nat
  contractAddress : String
deriving DecidableEq, Inhabited

/-- `json.image.replace('ipfs://', gateway)` (first occurrence). -/
def rewriteIpfs (gateway uri : String) : String :=
  replaceFirst uri ("ipfs://") gateway

/-- `Promise.all` over the per-token fetches followed by the throw-on-error
loop: `none` as soon as one response is not ok. -/
def fetchAllMeta (http : String → Option MetadataJson) :
    List (Nat × String) → Option (List (Nat × MetadataJson))
  | [] => some []
  | t :: ts =>
    match http t.2 with
    | none => none
    | some j =>
      match fetchAllMeta http ts with
      | none => none
      | some rest => some ((t.1, j) :: rest)

/-- The JS comparator `(a, b) => a.tokenId.toNumber() - b.tokenId.toNumber()`
as the ordering it sorts by. -/
def tokenIdLe (a b : TokenMetadata) : Prop := a.tokenId ≤ b.tokenId

instance : DecidableRel tokenIdLe := fun a b => Nat.decLe a.tokenId b.tokenId

instance : IsTotal TokenMetadata tokenIdLe := ⟨fun a b => Nat.le_total a.tokenId b.tokenId⟩

instance : IsTrans TokenMetadata tokenIdLe := ⟨fun _ _ _ => Nat.le_trans⟩

/-- The `result.sort((a, b) => a.tokenId.toNumber() - b.tokenId.toNumber())`
call, modelled as a comparison sort by ascending numeric token id. -/
def sortByTokenId (l : List TokenMetadata) : List TokenMetadata :=
  List.insertionSort tokenIdLe l

/-- Build one ERC1155 record: rewrite the image, detect the asset type,
attach token id and contract address. -/
def buildRecord1155 (gateway : String) (detectAssetType : Option String → String)
    (contractAddress : String) (f : Nat × MetadataJson) : TokenMetadata :=
  let image := f.2.image.map (rewriteIpfs gateway)
  { name := f.2.name, description := f.2.description, image := image,
    assetType := detectAssetType image, tokenId := f.1, contractAddress := contractAddress }

/-- `ERC1155.metadataBulk`: fetch all, build the records in request order,
then sort by numeric token id. -/
def erc1155MetadataBulk (gateway : String) (detectAssetType : Option String → String)
    (contractAddress : String) (http : String → Option MetadataJson)
    (tokens : List (Nat × String)) : Option (List TokenMetadata) :=
  match fetchAllMeta http tokens with
  | none => none
  | some fetched =>
    some (sortByTokenId (fetched.map (buildRecord1155 gateway detectAssetType contractAddress)))

/-- `ERC721.metadataBulk`: fetch all and build the records in request
order; the result is returned without any sort. -/
def erc721MetadataBulk (gateway : String) (contractAddress : String)
    (http : String → Option MetadataJson)
    (tokens : List (Nat × String)) : Option (List TokenMetadata) :=
  match fetchAllMeta http tokens with
  | none => none
  | some fetched =>
    some (fetched.map fun f =>
      let image := f.2.image.map (rewriteIpfs gateway)
      { name := f.2.name, description := f.2.description, image := image,
        assetType := "", tokenId := f.1, contractAddress := contractAddress })

/-- Example URI fetcher serving two token documents. -/
def httpMetaEx : String → Option MetadataJson :=
  fun u =>
    if u = "u1" then some { name := "one", description := "d1", image := none }
    else if u = "u2" then some { name := "two", description := "d2", image := none }
    else none

/-! ### ERC1155.ownedTokenIds (ERC1155, lines 297-331)

```ts
public async ownedTokenIds (owner, startId = BigNumber.from(1), endId = this._maximumID) {
    const results: BigNumber[] = [];
    if (this.contract.multicallProvider) {
        const calls: IContractCall[] = [];
        for (let tokenId = BigNumber.from(startId); tokenId.lte(BigNumber.from(endId)); tokenId = tokenId.add(1)) {
            calls.push(this.call('balanceOf', owner, tokenId));
        }
        const response = await this.contract.multicallProvider.aggregate<BigNumber[]>(calls);
        for (let i = 0; i < response.length; i++) {
            if (!response[i].isZero()) {
                response.push(BigNumber.from(BigNumber.from(startId).add(i)));
            }
        }
    } else {
        for (let tokenId = BigNumber.from(startId); tokenId.lte(BigNumber.from(endId)); tokenId = tokenId.add(1)) {
            if (!(await this.balanceOf(owner, tokenId)).isZero()) {
                results.push(tokenId);
            }
        }
    }
    return results;
}
```

In the multicall branch the scan loop pushes the discovered ids onto
`response` — the very array whose length the loop condition reads — and
`results` is returned untouched. The owner's balances are the fixed
collaborator `balanceOf : Nat → Nat`; the aggregated `response` is one
balance per id of the inclusive range, in order. The scan loop takes
fuel and returns `none` when it runs out, modelling the loop never
terminating. -/

/-- The inclusive id range `startId..endId` walked by both branches. -/
def idRange (startId endId : Nat) : List Nat :=
  List.range' startId (endId + 1 - startId)

/-- The `for (let i = 0; i < response.length; i++)` scan of the multicall
branch, including the self-extending `response.push`. -/
def ownedScanLoop (startId : Nat) (response : List Nat) (i : Nat) (fuel : Nat) :
    Option (List Nat) :=
  match fuel with
  | 0 => none
  | fuel1 + 1 =>
    if i < response.length then
      let response1 :=
        if !(response.getD i 0 = 0) then response ++ [startId + i] else response
      ownedScanLoop startId response1 (i + 1) fuel1
    else some response

/-- `ERC1155.ownedTokenIds`, multicall branch: aggregate the balances of
the range, run the scan loop, then return the untouched `results` array
(empty). `none` = the scan loop never terminates. -/
def ownedTokenIdsAggregate (balanceOf : Nat → Nat) (startId endId : Nat)
    (fuel : Nat) : Option (List Nat) :=
  let response := (idRange startId endId).map balanceOf
  match ownedScanLoop startId response 0 fuel with
  | none => none
  | some _ => some []

/-- `ERC1155.ownedTokenIds`, fallback branch: walk the inclusive range in
ascending order and push the ids whose balance is non-zero onto `results`,
i.e. filter the range by `!(await this.balanceOf(owner, tokenId)).isZero()`. -/
def ownedTokenIdsDirect (balanceOf : Nat → Nat) (startId endId : Nat) : List Nat :=
  (idRange startId endId).filter fun tokenId => !(balanceOf tokenId = 0)

/-- Example owner: owns only token id 0. -/
def balanceEx : Nat → Nat := fun id => if id = 0 then 1 else 0

/-- The ERC1155 record `httpMetaEx` produces for token id 1. -/
def metaOne1155 : TokenMetadata :=
  { name := "one", description := "d1", image := none, assetType := "img",
    tokenId := 1, contractAddress := "0xN" }

/-- The ERC1155 record `httpMetaEx` produces for token id 2. -/
def metaTwo1155 : TokenMetadata :=
  { name := "two", description := "d2", image := none, assetType := "img",
    tokenId := 2, contractAddress := "0xN" }

/-- The ERC721 record `httpMetaEx` produces for token id 1. -/
def metaOne721 : TokenMetadata :=
  { name := "one", description := "d1", image := none, assetType := "",
    tokenId := 1, contractAddress := "0xN" }

/-- The ERC721 record `httpMetaEx` produces for token id 2. -/
def metaTwo721 : TokenMetadata :=
  { name := "two", description := "d2", image := none, assetType := "",
    tokenId := 2, contractAddress := "0xN" }


/-! ## Theorems -/

/-- C3: the claim says a non-revert failure (for example a generic timeout)
is retried at least once after the backoff delay. It is not: the
`return func(...params)` inside the `try` block is not awaited, so a
rejected promise bypasses the `catch` entirely and the error propagates
after a single invocation. (The revert half of the claim does hold: a
revert-marked error is propagated immediately without retry, second
conjunct.) The trace component lists every argument list `func` was
applied to. -/
theorem retryCall_timeout_not_retried :
    retryCall timeoutFunc [1] 10 = (JsCallResult.thrown ("timed out after 5000ms"), [[1]]) ∧
    retryCall revertFunc [2] 10 =
      (JsCallResult.thrown ("call revert exception in method"), [[2]]) ∧
    retryCall revertSyncFunc [3] 10 =
      (JsCallResult.thrown ("call revert exception in method"), [[3]]) := by
  decide

/-- C10: the claim says every retry invokes the wrapped function with the
same argument list as the first attempt. It does not: the recursive call
is `this.retryCall(func)`, dropping `params`, so the second invocation is
applied to the empty argument list. `flakyFunc` throws synchronously on
`[5]` and succeeds on `[]`; the invocation trace is `[[5], []]`, not
`[[5], [5]]`. -/
theorem retryCall_retry_drops_params :
    retryCall flakyFunc [5] 10 = (JsCallResult.value 7, [[5], []]) ∧
    ¬ ([[5], []] : List (List Int)) = [[5], [5]] := by
  decide

/-- C1: the claim says the decoded result at index i is decoded against the
output signature of submitted call i, also across batch boundaries. The
loop reads `calls[i]` with the batch-local index, so with `batchSize = 1`
and two calls, the second batch's result is decoded against call 0's
single-output signature (and scalar-unwrapped) instead of call 1's
two-output signature (which would produce the tuple `decodeEntry` yields
for call 1). -/
theorem aggregate_wrong_outputs_across_batches :
    aggregate encodeEx decodeEx execEx callsEx 1 =
      some ([JsValue.prim (JsPrim.str ("uint256:f0")), JsValue.prim (JsPrim.str ("uint256:f1"))],
        [[{ target := "0xA", callData := "f0" }], [{ target := "0xB", callData := "f1" }]]) ∧
    decodeEntry decodeEx (callsEx.getD 1 default) ("f1") =
      JsValue.arr [JsPrim.str ("uint256:f1"), JsPrim.str ("address:f1")] ∧
    ¬ JsValue.prim (JsPrim.str ("uint256:f1")) =
        JsValue.arr [JsPrim.str ("uint256:f1"), JsPrim.str ("address:f1")] := by
  decide

/-- C9: the claim says both branches of `ownedTokenIds` return exactly the
ids in the range with non-zero balance. For an owner holding only token
id 0 on the range 0..0, the fallback branch returns `[0]` while the
multicall branch terminates its scan and returns the untouched empty
`results` array. -/
theorem ownedTokenIds_branches_disagree :
    ownedTokenIdsAggregate balanceEx 0 0 5 = some [] ∧
    ownedTokenIdsDirect balanceEx 0 0 = [0] ∧
    ¬ (([] : List Nat) = [0]) := by
  decide

/-- C6 counterexample: `ERC721.metadataBulk` applied to requests for token
ids `[2, 1]` returns the records in request order `[2, 1]`, which is not
sorted by numeric token id ascending. -/
theorem erc721MetadataBulk_not_sorted :
    (erc721MetadataBulk ("https://gw/ipfs/") ("0xN") httpMetaEx [(2, "u2"), (1, "u1")]).map
        (fun l => l.map fun m => m.tokenId) = some [2, 1] ∧
    ¬ (2 : Nat) ≤ 1 := by
  decide

/-- An empty pending list ends the aggregate loop immediately. -/
theorem aggregateLoop_nil (decode : List String → String → List JsPrim)
    (execBatch : List CallRequest → List String)
    (calls : List ContractCall) (batchSize fuel : Nat) :
    aggregateLoop decode execBatch calls batchSize [] fuel = some ([], []) := by
  cases fuel <;> rfl

/-- With a positive batch size, fuel exceeding the pending-list length is
enough for the aggregate loop to terminate. -/
theorem aggregateLoop_isSome (decode : List String → String → List JsPrim)
    (execBatch : List CallRequest → List String)
    (calls : List ContractCall) (batchSize : Nat) (hbs : 1 ≤ batchSize) :
    ∀ fuel reqs, reqs.length < fuel →
      (aggregateLoop decode execBatch calls batchSize reqs fuel).isSome = true := by
  intro fuel
  induction fuel with
  | zero => intro reqs h; exact absurd h (Nat.not_lt_zero _)
  | succ n ih =>
    intro reqs h
    match reqs with
    | [] => rw [aggregateLoop_nil]; rfl
    | q :: qs =>
      have hrest : (List.drop batchSize (q :: qs)).length < n := by
        rw [List.length_drop]
        simp only [List.length_cons] at h ⊢
        omega
      have hrec := ih _ hrest
      simp only [aggregateLoop]
      cases hout : aggregateLoop decode execBatch calls batchSize (List.drop batchSize (q :: qs)) n with
      | none => rw [hout] at hrec; simp at hrec
      | some out =>
        obtain ⟨tailRes, tailBatches⟩ := out
        simp

/-- Every successful run of the aggregate loop returns one decoded result
per pending request, hands the pending requests to the aggregator
partitioned in original order, and submits ceil(pending/batchSize)
batches, each but the last of size exactly batchSize. -/
theorem aggregateLoop_spec (decode : List String → String → List JsPrim)
    (execBatch : List CallRequest → List String)
    (calls : List ContractCall) (batchSize : Nat) (hbs : 1 ≤ batchSize) :
    ∀ fuel reqs res batches,
      aggregateLoop decode execBatch calls batchSize reqs fuel = some (res, batches) →
      res.length = reqs.length ∧
      batches.flatten = reqs ∧
      batches.length = (reqs.length + batchSize - 1) / batchSize ∧
      ∀ b ∈ batches.dropLast, b.length = batchSize := by
  intro fuel
  induction fuel with
  | zero =>
    intro reqs res batches h
    match reqs with
    | [] =>
      rw [aggregateLoop_nil] at h
      simp only [Option.some.injEq, Prod.mk.injEq] at h
      obtain ⟨h1, h2⟩ := h
      subst h1; subst h2
      refine ⟨rfl, rfl, ?_, ?_⟩
      · simp [Nat.div_eq_of_lt (show batchSize - 1 < batchSize by omega)]
      · intro b hb; simp at hb
    | q :: qs =>
      simp only [aggregateLoop] at h
      exact Option.noConfusion h
  | succ n ih =>
    intro reqs res batches h
    match reqs with
    | [] =>
      rw [aggregateLoop_nil] at h
      simp only [Option.some.injEq, Prod.mk.injEq] at h
      obtain ⟨h1, h2⟩ := h
      subst h1; subst h2
      refine ⟨rfl, rfl, ?_, ?_⟩
      · simp [Nat.div_eq_of_lt (show batchSize - 1 < batchSize by omega)]
      · intro b hb; simp at hb
    | q :: qs =>
      simp only [aggregateLoop] at h
      cases hrec : aggregateLoop decode execBatch calls batchSize (List.drop batchSize (q :: qs)) n with
      | none => rw [hrec] at h; exact absurd h (by simp)
      | some out =>
        obtain ⟨tailRes, tailBatches⟩ := out
        rw [hrec] at h
        simp only [Option.some.injEq, Prod.mk.injEq] at h
        obtain ⟨hres, hbatches⟩ := h
        obtain ⟨ihlen, ihjoin, ihcount, ihlast⟩ := ih _ _ _ hrec
        subst hres; subst hbatches
        have hL : 1 ≤ (q :: qs).length := by simp
        refine ⟨?_, ?_, ?_, ?_⟩
        · simp only [List.length_append, List.length_map, List.length_range, List.length_take]
          rw [ihlen, List.length_drop]
          simp only [List.length_cons] at *
          omega
        · simp only [List.flatten_cons]
          rw [ihjoin]
          exact List.take_append_drop _ _
        · conv_lhs => rw [List.length_cons]
          rw [ihcount, List.length_drop]
          have h1 : (q :: qs).length + batchSize - 1 = ((q :: qs).length - 1) + batchSize := by
            omega
          rw [h1, Nat.add_div_right _ (by omega : 0 < batchSize)]
          by_cases hcase : (q :: qs).length ≤ batchSize
          · have h2 : (q :: qs).length - batchSize = 0 := by omega
            rw [h2]
            have h3 : (0 + batchSize - 1) / batchSize = 0 := Nat.div_eq_of_lt (by omega)
            have h4 : ((q :: qs).length - 1) / batchSize = 0 := Nat.div_eq_of_lt (by omega)
            omega
          · have h2 : (q :: qs).length - batchSize + batchSize - 1 = (q :: qs).length - 1 := by
              omega
            rw [h2]
        · intro b hb
          cases tailBatches with
          | nil => simp at hb
          | cons t ts =>
            have hdropne : List.drop batchSize (q :: qs) ≠ [] := by
              intro hnil
              rw [hnil, aggregateLoop_nil] at hrec
              simp at hrec
            have hbslt : batchSize < (q :: qs).length := by
              have := List.length_drop batchSize (q :: qs)
              have hpos : 0 < (List.drop batchSize (q :: qs)).length :=
                List.length_pos.mpr hdropne
              omega
            rw [List.dropLast_cons_of_ne_nil (by simp : (t :: ts) ≠ [])] at hb
            rcases List.mem_cons.mp hb with hbatch | htail
            · subst hbatch
              rw [List.length_take]
              omega
            · exact ihlast b htail

/-- C2: for every list of N calls and positive batch size, `aggregate`
terminates and its decoded result sequence has length exactly N, the
per-batch decoded results being concatenated in submission order. -/
theorem aggregate_result_length (encode : String → List String → List JsPrim → String)
    (decode : List String → String → List JsPrim)
    (execBatch : List CallRequest → List String)
    (calls : List ContractCall) (batchSize : Nat) (hbs : 1 ≤ batchSize) :
    ∃ res batches,
      aggregate encode decode execBatch calls batchSize = some (res, batches) ∧
      res.length = calls.length := by
  have h1 : (calls.map (encodeRequest encode)).length <
      (calls.map (encodeRequest encode)).length + 1 := Nat.lt_succ_self _
  have h2 := aggregateLoop_isSome decode execBatch calls batchSize hbs _ _ h1
  rw [Option.isSome_iff_exists] at h2
  obtain ⟨⟨res, batches⟩, hout⟩ := h2
  refine ⟨res, batches, hout, ?_⟩
  have := (aggregateLoop_spec decode execBatch calls batchSize hbs _ _ _ _ hout).1
  simpa using this

/-- C2 witness: the batch of two example calls at the default batch size 50
yields exactly two decoded results. -/
theorem aggregate_result_length_witness :
    (1 ≤ 50) ∧
    ∃ res batches,
      aggregate encodeEx decodeEx execEx callsEx 50 = some (res, batches) ∧
      res.length = callsEx.length :=
  ⟨by decide, aggregate_result_length encodeEx decodeEx execEx callsEx 50 (by decide)⟩

/-- C5: for every list of N calls and positive batch size, `aggregate`
partitions the encoded requests into fixed-size batches in original order
and performs exactly ceil(N/batchSize) aggregator submissions; in
particular N = batchSize gives one submission and N = batchSize + 1 gives
two. -/
theorem aggregate_batching (encode : String → List String → List JsPrim → String)
    (decode : List String → String → List JsPrim)
    (execBatch : List CallRequest → List String)
    (calls : List ContractCall) (batchSize : Nat) (hbs : 1 ≤ batchSize) :
    ∃ res batches,
      aggregate encode decode execBatch calls batchSize = some (res, batches) ∧
      batches.flatten = calls.map (encodeRequest encode) ∧
      batches.length = (calls.length + batchSize - 1) / batchSize ∧
      (∀ b ∈ batches.dropLast, b.length = batchSize) ∧
      (calls.length = batchSize → batches.length = 1) ∧
      (calls.length = batchSize + 1 → batches.length = 2) := by
  have h1 : (calls.map (encodeRequest encode)).length <
      (calls.map (encodeRequest encode)).length + 1 := Nat.lt_succ_self _
  have h2 := aggregateLoop_isSome decode execBatch calls batchSize hbs _ _ h1
  rw [Option.isSome_iff_exists] at h2
  obtain ⟨⟨res, batches⟩, hout⟩ := h2
  obtain ⟨_, hjoin, hcount, hlast⟩ :=
    aggregateLoop_spec decode execBatch calls batchSize hbs _ _ _ _ hout
  rw [List.length_map] at hcount
  refine ⟨res, batches, hout, hjoin, hcount, hlast, ?_, ?_⟩
  · intro hN
    rw [hcount, hN]
    exact Nat.div_eq_of_lt_le (by omega) (by omega)
  · intro hN
    rw [hcount, hN]
    exact Nat.div_eq_of_lt_le (by omega) (by omega)

/-- C5 witness: two calls with batch size 1 are submitted as two singleton
batches, partitioning the encoded requests in order; with batch size 2
(equal to the list length) a single submission would occur. -/
theorem aggregate_batching_witness :
    (1 ≤ 1) ∧
    ∃ res batches,
      aggregate encodeEx decodeEx execEx callsEx 1 = some (res, batches) ∧
      batches.flatten = callsEx.map (encodeRequest encodeEx) ∧
      batches.length = (callsEx.length + 1 - 1) / 1 ∧
      (∀ b ∈ batches.dropLast, b.length = 1) ∧
      (callsEx.length = 1 → batches.length = 1) ∧
      (callsEx.length = 1 + 1 → batches.length = 2) :=
  ⟨by decide, aggregate_batching encodeEx decodeEx execEx callsEx 1 (by decide)⟩

/-- A string of non-zero length is not the empty string, and conversely. -/
theorem string_length_zero_iff (s : String) : s.length = 0 ↔ s = "" := by
  cases s with
  | mk data =>
    cases data with
    | nil => exact ⟨fun _ => rfl, fun _ => rfl⟩
    | cons c cs =>
      constructor
      · intro h
        exact absurd h (by simp [String.length])
      · intro h
        have hdata : c :: cs = [] := congrArg String.data h
        exact absurd hdata (by simp)

/-- C4: constructing the multicall provider for a chain id with no
registered aggregator address and no explicitly supplied one fails with
the `'Unknown multicall address'` configuration error while performing no
network round trip; supplying an address explicitly avoids the error. -/
theorem multicall_unknown_address_config_error (registry : Nat → Option String)
    (networkChainId chainId : Nat) (addr : String)
    (hreg : registry chainId = none) (hcid : chainId ≠ 0) (haddr : addr ≠ "") :
    createMulticall registry networkChainId (some chainId) none =
      (Except.error ("Unknown multicall address"), 0) ∧
    createMulticall registry networkChainId (some chainId) (some addr) =
      (Except.ok addr, 0) := by
  constructor
  · simp [createMulticall, constructMulticall, jsTruthyStr, hreg, hcid]
  · have hlen : ¬ addr.length = 0 := fun h => haddr ((string_length_zero_iff addr).mp h)
    simp [createMulticall, constructMulticall, jsTruthyStr, hcid, hlen]

/-- C4 witness: chain id 999 with an empty registry fails fast with the
configuration error and zero network calls; the explicit address `0xM` is
accepted. -/
theorem multicall_unknown_address_config_error_witness :
    ((fun _ : Nat => (none : Option String)) 999 = none) ∧
    (999 : Nat) ≠ 0 ∧ ("0xM" : String) ≠ "" ∧
    (createMulticall (fun _ => none) 250 (some 999) none =
      (Except.error ("Unknown multicall address"), 0) ∧
     createMulticall (fun _ => none) 250 (some 999) (some ("0xM")) =
      (Except.ok ("0xM"), 0)) :=
  ⟨rfl, by decide, by decide,
    multicall_unknown_address_config_error (fun _ => none) 250 999 ("0xM") rfl
      (by decide) (by decide)⟩

/-- The probing loop never returns less than the cache it starts from. -/
theorem discoverLoop_le (uriOk : Nat → Bool) :
    ∀ k cache i possibleMaxId, possibleMaxId - i ≤ k → cache ≤ i →
      cache ≤ discoverLoop uriOk cache i possibleMaxId := by
  intro k
  induction k with
  | zero =>
    intro cache i p hk hci
    rw [discoverLoop, if_neg (by omega : ¬ i < p)]
  | succ k ih =>
    intro cache i p hk hci
    rw [discoverLoop]
    by_cases hip : i < p
    · rw [if_pos hip]
      by_cases hu : uriOk i
      · rw [if_pos hu]
        have h2 := ih i (i + 1) p (by omega) (by omega)
        omega
      · rw [if_neg hu]
    · rw [if_neg hip]

/-- One `discoverMaximumId` call never decreases the `_maximumID` cache. -/
theorem discoverMaximumId_cache_le (m : Option Nat) (u : Nat → Bool) (p cache : Nat) :
    cache ≤ (discoverMaximumId m u p cache).2 := by
  cases m with
  | some v => exact le_rfl
  | none =>
    by_cases h0 : cache = 0
    · subst h0
      exact Nat.zero_le _
    · simp only [discoverMaximumId, if_neg h0]
      exact discoverLoop_le u (p - cache) cache cache p le_rfl le_rfl

/-- When the contract has no `maximumID` accessor, the returned value is
exactly the updated cache. -/
theorem discoverMaximumId_none_fst (u : Nat → Bool) (p cache : Nat) :
    (discoverMaximumId none u p cache).1 = (discoverMaximumId none u p cache).2 := rfl

/-- A call sequence never decreases the cache below its starting value. -/
theorem discoverCacheAfter_le (m : Option Nat) (u : Nat → Bool) :
    ∀ args cache, cache ≤ discoverCacheAfter m u args cache := by
  intro args
  induction args with
  | nil => intro cache; exact le_rfl
  | cons p ps ih =>
    intro cache
    have h1 := discoverMaximumId_cache_le m u p cache
    have h2 := ih ((discoverMaximumId m u p cache).2)
    simp only [discoverCacheAfter, List.foldl_cons] at h2 ⊢
    omega

/-- C7: with unchanged contract responses the maximum-id cache is
monotonically non-decreasing along any sequence of `discoverMaximumId`
calls, and the result of a second consecutive call is greater than or
equal to the result of the first. -/
theorem discoverMaximumId_monotone (m : Option Nat) (u : Nat → Bool) (cache : Nat)
    (argsA argsB : List Nat) (p1 p2 : Nat) :
    discoverCacheAfter m u argsA cache ≤ discoverCacheAfter m u (argsA ++ argsB) cache ∧
    (discoverMaximumId m u p1 cache).1 ≤
      (discoverMaximumId m u p2 ((discoverMaximumId m u p1 cache).2)).1 := by
  constructor
  · have h2 := discoverCacheAfter_le m u argsB (discoverCacheAfter m u argsA cache)
    simp only [discoverCacheAfter, List.foldl_append] at h2 ⊢
    exact h2
  · cases m with
    | some v => exact le_rfl
    | none =>
      rw [discoverMaximumId_none_fst, discoverMaximumId_none_fst]
      exact discoverMaximumId_cache_le none u p2 _

/-- A forced refresh never reads the cache: the fetch outcome and the HTTP
fetch count are independent of the store contents. -/
theorem fetchABI_force_independent (chainList : Nat → Option ChainDescriptor)
    (http : String → HttpJsonResponse) (chainId : Nat) (contractAddress : String) :
    ∀ fuel store1 store2,
      (fetchABI chainList http store1 chainId contractAddress true fuel).1 =
        (fetchABI chainList http store2 chainId contractAddress true fuel).1 ∧
      (fetchABI chainList http store1 chainId contractAddress true fuel).2.2 =
        (fetchABI chainList http store2 chainId contractAddress true fuel).2.2 := by
  intro fuel
  induction fuel with
  | zero =>
    intro s1 s2
    simp only [fetchABI]
    cases chainList chainId with
    | none => exact ⟨rfl, rfl⟩
    | some chain =>
      by_cases hexp : chain.explorers.length = 0
      · simp only [if_pos hexp]
        exact ⟨rfl, rfl⟩
      · simp only [if_neg hexp]
        by_cases hok : (http (explorerUrl chain contractAddress)).ok
        · simp only [hok, Bool.not_true, Bool.false_eq_true, if_false]
          by_cases hres : (!((http (explorerUrl chain contractAddress)).result.length = 0) &&
              (http (explorerUrl chain contractAddress)).status == "1") = true
          · simp only [hres, if_true]
            exact ⟨by trivial, by trivial⟩
          · simp only [hres, if_false]
            exact ⟨by trivial, by trivial⟩
        · simp only [Bool.not_eq_true] at hok
          simp only [hok, Bool.not_false, if_true]
          exact ⟨by trivial, by trivial⟩
  | succ n ih =>
    intro s1 s2
    simp only [fetchABI]
    cases chainList chainId with
    | none => exact ⟨rfl, rfl⟩
    | some chain =>
      by_cases hexp : chain.explorers.length = 0
      · simp only [if_pos hexp]
        exact ⟨rfl, rfl⟩
      · simp only [if_neg hexp]
        by_cases hok : (http (explorerUrl chain contractAddress)).ok
        · simp only [hok, Bool.not_true, Bool.false_eq_true, if_false]
          by_cases hres : (!((http (explorerUrl chain contractAddress)).result.length = 0) &&
              (http (explorerUrl chain contractAddress)).status == "1") = true
          · simp only [hres, if_true]
            exact ⟨by trivial, by trivial⟩
          · simp only [hres, if_false]
            obtain ⟨ih1, ih2⟩ := ih s1 s2
            refine ⟨?_, ?_⟩
            · exact ih1
            · simp [ih2]
        · simp only [Bool.not_eq_true] at hok
          simp only [hok, Bool.not_false, if_true]
          exact ⟨by trivial, by trivial⟩

/-- C8: with no forced refresh, a non-empty ABI text stored under the key
`"{chainId}_{contractAddress}"` is returned as-is with zero HTTP fetches;
under a forced refresh the cached entry is bypassed — the outcome and the
fetch count do not depend on the store at all. -/
theorem fetchABI_cache_hit (chainList : Nat → Option ChainDescriptor)
    (http : String → HttpJsonResponse) (store : String → Option String)
    (chainId : Nat) (contractAddress abi : String) (fuel : Nat)
    (hhit : store (abiCacheId chainId contractAddress) = some abi)
    (hne : ¬ abi.length = 0) :
    fetchABI chainList http store chainId contractAddress false fuel =
      (FetchOutcome.ok abi, store, 0) ∧
    ∀ store2,
      (fetchABI chainList http store chainId contractAddress true fuel).1 =
        (fetchABI chainList http store2 chainId contractAddress true fuel).1 ∧
      (fetchABI chainList http store chainId contractAddress true fuel).2.2 =
        (fetchABI chainList http store2 chainId contractAddress true fuel).2.2 := by
  constructor
  · cases fuel <;> simp [fetchABI, hhit, hne]
  · intro store2
    exact fetchABI_force_independent chainList http chainId contractAddress fuel store store2

/-- C8 witness: the example store caches a non-empty ABI for chain 250 and
contract `0xC`; `fetchABI` without force refresh returns it with zero HTTP
fetches. -/
theorem fetchABI_cache_hit_witness :
    storeEx (abiCacheId 250 ("0xC")) = some ("cachedAbiText") ∧
    ¬ ("cachedAbiText" : String).length = 0 ∧
    fetchABI chainListEx httpEx storeEx 250 ("0xC") false 3 =
      (FetchOutcome.ok ("cachedAbiText"), storeEx, 0) :=
  ⟨by decide, by decide,
    (fetchABI_cache_hit chainListEx httpEx storeEx 250 ("0xC") ("cachedAbiText") 3
      (by decide) (by decide)).1⟩

/-- `fetchAllMeta` preserves the requested token ids, in request order. -/
theorem fetchAllMeta_ids (http : String → Option MetadataJson) :
    ∀ tokens fetched, fetchAllMeta http tokens = some fetched →
      fetched.map Prod.fst = tokens.map Prod.fst := by
  intro tokens
  induction tokens with
  | nil =>
    intro fetched h
    simp only [fetchAllMeta, Option.some.injEq] at h
    subst h
    rfl
  | cons t ts ih =>
    intro fetched h
    simp only [fetchAllMeta] at h
    cases hj : http t.2 with
    | none => rw [hj] at h; exact Option.noConfusion h
    | some j =>
      rw [hj] at h
      cases hr : fetchAllMeta http ts with
      | none => rw [hr] at h; exact Option.noConfusion h
      | some rest =>
        rw [hr] at h
        simp only [Option.some.injEq] at h
        subst h
        simp [ih rest hr]

/-- C6 amended: the ERC1155 wrapper's bulk metadata result is sorted by
numeric token id ascending, while the ERC721 wrapper's `metadataBulk`
returns its records in request order without sorting. -/
theorem metadataBulk_sorting (gateway : String) (detect : Option String → String)
    (caddr : String) (http : String → Option MetadataJson)
    (tokens : List (Nat × String)) (l1 l2 : List TokenMetadata)
    (h1 : erc1155MetadataBulk gateway detect caddr http tokens = some l1)
    (h2 : erc721MetadataBulk gateway caddr http tokens = some l2) :
    List.Sorted tokenIdLe l1 ∧
    l2.map (fun m => m.tokenId) = tokens.map Prod.fst := by
  cases hf : fetchAllMeta http tokens with
  | none =>
    simp only [erc1155MetadataBulk, hf] at h1
    exact Option.noConfusion h1
  | some fetched =>
    simp only [erc1155MetadataBulk, hf, Option.some.injEq] at h1
    simp only [erc721MetadataBulk, hf, Option.some.injEq] at h2
    subst h1
    subst h2
    constructor
    · exact List.sorted_insertionSort tokenIdLe _
    · rw [List.map_map]
      have hids := fetchAllMeta_ids http tokens fetched hf
      rw [← hids]
      rfl

/-- C6 amended witness: fetching token ids 2 then 1 yields the ERC1155
records sorted as ids 1, 2, while the ERC721 records stay in request
order 2, 1. -/
theorem metadataBulk_sorting_witness :
    erc1155MetadataBulk ("g/") (fun _ => "img") ("0xN") httpMetaEx [(2, "u2"), (1, "u1")] =
      some [metaOne1155, metaTwo1155] ∧
    erc721MetadataBulk ("g/") ("0xN") httpMetaEx [(2, "u2"), (1, "u1")] =
      some [metaTwo721, metaOne721] ∧
    (List.Sorted tokenIdLe [metaOne1155, metaTwo1155] ∧
     [metaTwo721, metaOne721].map (fun m => m.tokenId) =
       ([(2, "u2"), (1, "u1")] : List (Nat × String)).map Prod.fst) :=
  ⟨by decide, by decide,
    metadataBulk_sorting ("g/") (fun _ => "img") ("0xN") httpMetaEx [(2, "u2"), (1, "u1")]
      [metaOne1155, metaTwo1155] [metaTwo721, metaOne721] (by decide) (by decide)⟩

/-- For a range starting at id 1 or later, once the scan of the multicall
branch reaches a non-zero balance every id it appends is itself non-zero,
so the loop condition `i < response.length` never becomes false: the scan
runs out of any finite fuel, i.e. the original loop never terminates. -/
theorem ownedScanLoop_diverges (startId : Nat) (hs : 1 ≤ startId) :
    ∀ fuel response i, i < response.length →
      (∀ j, i ≤ j → j < response.length → response.getD j 0 ≠ 0) →
      ownedScanLoop startId response i fuel = none := by
  intro fuel
  induction fuel with
  | zero =>
    intro response i hi hnz
    rfl
  | succ n ih =>
    intro response i hi hnz
    have hgetd : response.getD i 0 ≠ 0 := hnz i le_rfl hi
    simp only [ownedScanLoop, if_pos hi]
    rw [if_pos (by simpa using hgetd)]
    apply ih
    · rw [List.length_append]
      simp only [List.length_singleton]
      omega
    · intro j hj hjlen
      rw [List.length_append, List.length_singleton] at hjlen
      by_cases hjl : j < response.length
      · rw [List.getD_append _ _ _ _ hjl]
        exact hnz j (by omega) hjl
      · have hje : j = response.length := by omega
        subst hje
        rw [List.getD_append_right _ _ _ _ le_rfl]
        simp only [Nat.sub_self, List.getD]
        simp
        omega
